import Mathlib

/-!
Verification development for the edu-dent core: the semantic compression
engine (`SemanticCompressionEngine` in `src/app/lib/ai/educational-validator.ts`),
the model router (`EducationalModelRouter`) and the streaming validator
(`StreamingValidator`).

The TypeScript sources are shallowly embedded: class methods become pure
functions, the mutable `memoryLayers` field becomes explicit state passing,
JavaScript `Map`/`Set` become association lists / duplicate-free lists that
keep insertion order, and the ad hoc regular expressions (all of which are
alternations of literals, optionally with `\s*` gaps or `\b` boundaries)
become the equivalent explicit string scanners defined below.

Two external library calls are abstracted: `encode` from the `gpt-tokenizer`
npm package (a token-length function `tl : String -> Nat`), `JSON.stringify`
on extracted decisions (`js : List Decision -> String`), and the `acorn`
JavaScript parser (an oracle record).  Wall-clock reads (`Date.now()`) become
an explicit `now` argument.  Numbers are embedded as `Nat`/`Rat`.
-/

/-! ## Basic string utilities (character-level, mirroring the JS semantics) -/

/-- The single-quote character, kept out of string literals. -/
def sqChar : Char := Char.ofNat 39

/-- A one-character string holding a single quote. -/
def squo : String := String.mk [sqChar]

/-- JS `\w`: ASCII letters, digits and underscore. -/
def isWordChar (c : Char) : Bool :=
  (Char.ofNat 97 ≤ c.toLower && c.toLower ≤ Char.ofNat 122) || c.isDigit || c = Char.ofNat 95

/-- JS `\s` restricted to ASCII whitespace. -/
def isWsChar (c : Char) : Bool :=
  c = Char.ofNat 32 || c = Char.ofNat 9 || c = Char.ofNat 10 ||
  c = Char.ofNat 13 || c = Char.ofNat 11 || c = Char.ofNat 12

/-- Does `nd` occur inside `hay` (as a contiguous sublist)? -/
def listContains (hay nd : List Char) : Bool :=
  match hay with
  | [] => nd.isEmpty
  | _ :: t => nd.isPrefixOf hay || listContains t nd

/-- `String.includes` of JS: substring containment. -/
def strContains (hay nd : String) : Bool :=
  listContains hay.toList nd.toList

/-- Lower-case a string, character by character (ASCII is all we use). -/
def lowerStr (s : String) : String := String.mk (s.toList.map Char.toLower)

/-- Case-insensitive substring containment (the needle is given lower-case),
embedding a case-insensitive regex alternation of literals. -/
def containsCI (hay nd : String) : Bool := strContains (lowerStr hay) nd

/-- Does the (lower-cased) haystack contain any of the (lower-case) needles? -/
def containsAnyCI (hay : String) (nds : List String) : Bool :=
  nds.any (containsCI hay)

/-- Count the non-overlapping occurrences of `nd` in `hay`, scanning left to
right and skipping past each match, as a JS global regex of a literal does.
The fuel argument only serves termination; `fuel ≥ hay.length` makes it
inert, and `countOccur` always calls it so. -/
def countOccurAux (fuel : Nat) (hay nd : List Char) : Nat :=
  match fuel with
  | 0 => 0
  | f + 1 =>
    match hay with
    | [] => 0
    | h :: t =>
      if nd.isPrefixOf (h :: t) && !nd.isEmpty then
        1 + countOccurAux f ((h :: t).drop nd.length) nd
      else
        countOccurAux f t nd

/-- Occurrence count on strings. -/
def countSubstr (hay nd : String) : Nat :=
  countOccurAux hay.toList.length hay.toList nd.toList

/-- JS `str.split(sep)` for a single-character separator: splits at every
occurrence (empty pieces preserved), and the result is never empty. -/
def splitChar (sep : Char) (cs : List Char) (acc : List Char) : List String :=
  match cs with
  | [] => [String.mk acc.reverse]
  | c :: t =>
    if c = sep then String.mk acc.reverse :: splitChar sep t []
    else splitChar sep t (c :: acc)

/-- The word list of an already-simplified string: JS `str.split(' ')`. -/
def wordsOf (s : String) : List String := splitChar (Char.ofNat 32) s.toList []

/-- Collapse every run of whitespace to one space: JS `replace(/\s+/g, ' ')`.
Fuel-driven; `collapseWs` supplies fuel equal to the length, which suffices
because every step consumes at least one character. -/
def collapseWsAux (fuel : Nat) (cs : List Char) : List Char :=
  match fuel with
  | 0 => []
  | f + 1 =>
    match cs with
    | [] => []
    | c :: t =>
      if isWsChar c then Char.ofNat 32 :: collapseWsAux f (t.dropWhile isWsChar)
      else c :: collapseWsAux f t

/-- Collapse whitespace runs on a character list. -/
def collapseWs (cs : List Char) : List Char := collapseWsAux cs.length cs

/-- JS `String.prototype.trim` on a character list. -/
def trimChars (cs : List Char) : List Char :=
  ((cs.dropWhile isWsChar).reverse.dropWhile isWsChar).reverse

/-! ## Conversation data model (`educational-validator.ts`) -/

/-- The `role` union type of a `ConversationTurn`. -/
inductive Role where
  | user
  | assistant
  | system
deriving DecidableEq, Repr

/-- The string a role interpolates to. -/
def roleStr : Role → String
  | Role.user => "user"
  | Role.assistant => "assistant"
  | Role.system => "system"

/-- The optional `metadata` record of a `ConversationTurn`. -/
structure TurnMetadata where
  concept : Option String := none
  subject : Option String := none
  visualizationType : Option String := none
  importance : Option ℚ := none
deriving DecidableEq, Repr

/-- One `ConversationTurn`. -/
structure ConversationTurn where
  role : Role
  content : String
  timestamp : Nat
  metadata : Option TurnMetadata := none
deriving DecidableEq, Repr

/-- A key decision extracted by `extractKeyDecisions`: content after core
extraction, the originating role (`type: turn.role`), and an importance. -/
structure Decision where
  content : String
  type : Role
  importance : ℚ
deriving DecidableEq, Repr

/-- The `MemoryLayer` record: JS `Map`s become association lists and the JS
`Set` becomes a duplicate-free list, both keeping insertion order. -/
structure MemoryLayer where
  activeContext : List ConversationTurn
  projectMemory : List (String × List Decision)
  semanticCache : List (String × String)
  educationalConcepts : List String
deriving DecidableEq, Repr

/-- The freshly-constructed engine's empty memory layers. -/
def emptyMemory : MemoryLayer :=
  { activeContext := [], projectMemory := [], semanticCache := [], educationalConcepts := [] }

/-- The `CompressionResult` record. -/
structure CompressionResult where
  compressed : List ConversationTurn
  compressionRatio : ℚ
  preservedConcepts : List String
  tokenCount : Nat
deriving DecidableEq, Repr

/-! ## Association-list operations with JS `Map` semantics -/

/-- `Map.get`: the value stored under `k`, if any. -/
def assocLookup {β : Type} (m : List (String × β)) (k : String) : Option β :=
  match m with
  | [] => none
  | (k', v) :: t => if k' = k then some v else assocLookup t k

/-- `Map.set`: replace the value under an existing key in place, otherwise
append the new key at the end (JS `Map` keeps insertion order). -/
def assocSet {β : Type} (m : List (String × β)) (k : String) (v : β) : List (String × β) :=
  match m with
  | [] => [(k, v)]
  | (k', v') :: t => if k' = k then (k, v) :: t else (k', v') :: assocSet t k v

/-- The key list of an association list. -/
def assocKeys {β : Type} (m : List (String × β)) : List String := m.map Prod.fst

/-- `Set.add` on a duplicate-free, insertion-ordered list. -/
def insertConcept (l : List String) (x : String) : List String :=
  if x ∈ l then l else l ++ [x]

/-! ## SemanticCompressionEngine (`educational-validator.ts`, lines 511-821) -/

/-- `MAX_ACTIVE_TURNS` of the engine. -/
def MAX_ACTIVE_TURNS : Nat := 10

/-- JS `array.slice(-n)`: the last `n` elements (the whole list when shorter). -/
def takeLast {α : Type} (n : Nat) (l : List α) : List α := l.drop (l.length - n)

/-- The topic keyword patterns of `extractTopic`, in `Object.entries` order;
each regex is a case-insensitive alternation of literals. -/
def topicPatterns : List (String × List String) :=
  [("physics", ["pendulum", "wave", "motion", "force", "energy", "momentum"]),
   ("math", ["derivative", "integral", "calculus", "algebra", "geometry", "vector"]),
   ("chemistry", ["molecule", "reaction", "element", "compound", "periodic"]),
   ("visualization", ["d3", "chart", "graph", "animation", "interactive"])]

/-- The pattern-matching tail of `extractTopic`: first matching topic, else
`"general"`. -/
def topicOfContent (content : String) : String :=
  match topicPatterns.find? (fun p => containsAnyCI content p.2) with
  | some p => p.1
  | none => "general"

/-- `extractTopic`: a truthy `metadata.concept` wins (the empty string is
falsy in JS), otherwise keyword matching. -/
def extractTopic (t : ConversationTurn) : String :=
  match t.metadata with
  | some md =>
    match md.concept with
    | some c => if c = "" then topicOfContent t.content else c
    | none => topicOfContent t.content
  | none => topicOfContent t.content

/-- Append a turn to its topic's segment, creating the segment at the end on
first sight (JS `Map` insertion order). -/
def addToSegment (segs : List (String × List ConversationTurn)) (tp : String)
    (t : ConversationTurn) : List (String × List ConversationTurn) :=
  match segs with
  | [] => [(tp, [t])]
  | (k, ts) :: rest =>
    if k = tp then (k, ts ++ [t]) :: rest else (k, ts) :: addToSegment rest tp t

/-- `segmentByTopics`: one pass, grouping each turn under its extracted
topic (the `currentTopic` variable of the source only ever holds the current
turn's topic when the map is accessed, so the grouping is by topic). -/
def segmentByTopics (history : List ConversationTurn) :
    List (String × List ConversationTurn) :=
  history.foldl (fun segs t => addToSegment segs (extractTopic t) t) []

/-- The filler words removed by `extractCoreInformation`, lower-case. -/
def fillerWords : List (List Char) :=
  ["basically", "actually", "just", "really", "very", "quite"].map String.toList

/-- Case-insensitive literal prefix match. -/
def matchesCI : List Char → List Char → Bool
  | [], _ => true
  | _ :: _, [] => false
  | w :: ws, c :: cs => c.toLower = w && matchesCI ws cs

/-- The right word boundary of `\b` after a match of length `n`: end of input
or a non-word character. -/
def boundaryAfter (n : Nat) (cs : List Char) : Bool :=
  match cs.drop n with
  | [] => true
  | c :: _ => !isWordChar c

/-- Try to match one filler word at the current position with both `\b`
boundaries (`prevWord` says whether the previous original character was a
word character); returns the matched length. -/
def tryFiller (prevWord : Bool) (cs : List Char) : Option Nat :=
  if prevWord then none
  else
    match fillerWords.find? (fun w => matchesCI w cs && boundaryAfter w.length cs) with
    | some w => some w.length
    | none => none

/-- Scanner for `replace(/\b(basically|actually|just|really|very|quite)\b/gi, '')`:
left-to-right, skipping past each match.  Fuel equals the input length; every
step consumes at least one character. -/
def removeFillersAux (fuel : Nat) (prevWord : Bool) (cs : List Char) : List Char :=
  match fuel with
  | 0 => []
  | f + 1 =>
    match cs with
    | [] => []
    | c :: t =>
      match tryFiller prevWord (c :: t) with
      | some n => removeFillersAux f true ((c :: t).drop n)
      | none => c :: removeFillersAux f (isWordChar c) t

/-- Filler-word removal on a string. -/
def removeFillers (s : String) : String :=
  String.mk (removeFillersAux s.toList.length false s.toList)

/-- A sentence-ending character of `split(/[.!?]+/)`. -/
def isSentChar (c : Char) : Bool :=
  c = Char.ofNat 46 || c = Char.ofNat 33 || c = Char.ofNat 63

/-- JS `split(/[.!?]+/)`: split on maximal runs of sentence enders.  Fuel as
above. -/
def splitSentAux (fuel : Nat) (cs acc : List Char) : List String :=
  match fuel with
  | 0 => [String.mk acc.reverse]
  | f + 1 =>
    match cs with
    | [] => [String.mk acc.reverse]
    | c :: t =>
      if isSentChar c then
        String.mk acc.reverse :: splitSentAux f (t.dropWhile isSentChar) []
      else
        splitSentAux f t (c :: acc)

/-- Sentence splitting on a string. -/
def splitSentences (s : String) : List String := splitSentAux s.toList.length s.toList []

/-- `extractCoreInformation`: drop filler words, collapse whitespace, trim;
keep only first and last sentence when more than three remain. -/
def extractCoreInformation (content : String) : String :=
  let compressed := String.mk (trimChars (collapseWs (removeFillers content).toList))
  let sentences := (splitSentences compressed).filter
    (fun s => String.mk (trimChars s.toList) ≠ "")
  if sentences.length > 3 then
    sentences.headD "" ++ ". [...] " ++ sentences.getLastD "" ++ "."
  else
    compressed

/-- The importance stored with a decision: `turn.metadata?.importance || 0.8`
(`0` is falsy in JS and also falls back to `0.8`). -/
def decisionImportance (t : ConversationTurn) : ℚ :=
  match t.metadata with
  | some md =>
    match md.importance with
    | some q => if q = 0 then Rat.divInt 4 5 else q
    | none => Rat.divInt 4 5
  | none => Rat.divInt 4 5

/-- `extractKeyDecisions`: keep the turns matching the parameter-definition,
formula or visualization-request patterns. -/
def extractKeyDecisions (turns : List ConversationTurn) : List Decision :=
  turns.foldl
    (fun ds t =>
      let isParameterDefinition := containsAnyCI t.content ["set", "define", "configure", "parameter"]
      let isFormulaExplanation := containsAnyCI t.content ["formula", "equation", "calculate"]
      let isVisualizationSpec := containsAnyCI t.content ["create", "generate", "show", "display"]
      if isParameterDefinition || isFormulaExplanation || isVisualizationSpec then
        ds ++ [{ content := extractCoreInformation t.content, type := t.role,
                 importance := decisionImportance t }]
      else ds)
    []

/-- `simplifyContent`: lower-case, strip characters that are neither `\w` nor
`\s`, collapse whitespace, trim. -/
def simplifyContent (content : String) : String :=
  String.mk (trimChars (collapseWs
    ((lowerStr content).toList.filter (fun c => isWordChar c || isWsChar c))))

/-- `|words1 ∩ words2|` of `calculateSimilarity` (JS `Set` sizes). -/
def interCount (s1 s2 : String) : Nat :=
  (((wordsOf s1).dedup).filter (fun w => w ∈ wordsOf s2)).length

/-- `|words1 ∪ words2|` of `calculateSimilarity`. -/
def unionCount (s1 s2 : String) : Nat := ((wordsOf s1) ++ (wordsOf s2)).dedup.length

/-- `calculateSimilarity`: word-set Jaccard similarity. -/
def calculateSimilarity (s1 s2 : String) : ℚ :=
  (interCount s1 s2 : ℚ) / (unionCount s1 s2 : ℚ)

/-- The source's duplicate test `calculateSimilarity(a, b) > 0.85` as an
integer comparison; `simGT85_iff` below proves it equal to the rational one. -/
def simGT85 (s1 s2 : String) : Bool :=
  17 * unionCount s1 s2 < 20 * interCount s1 s2

/-- One step of the redundancy loop: the state is (seen simplified contents,
retained turns). -/
def redundantStep (st : List String × List ConversationTurn) (t : ConversationTurn) :
    List String × List ConversationTurn :=
  let simplified := simplifyContent t.content
  if st.1.any (fun existing => simGT85 simplified existing) then st
  else (st.1 ++ [simplified], st.2 ++ [t])

/-- The turns of one topic retained by `compressRedundantInfo`. -/
def redundantRetained (turns : List ConversationTurn) : List ConversationTurn :=
  (turns.foldl redundantStep ([], [])).2

/-- `compressRedundantInfo`: per topic, store the joined retained contents in
the semantic cache whenever at least one turn was dropped as a duplicate. -/
def compressRedundantInfo (cache : List (String × String))
    (segs : List (String × List ConversationTurn)) : List (String × String) :=
  segs.foldl
    (fun c p =>
      let compressed := redundantRetained p.2
      if compressed.length < p.2.length then
        assocSet c p.1 (String.intercalate "\n" (compressed.map ConversationTurn.content))
      else c)
    cache

/-- `updateMemoryLayers`: reset the active window, merge key decisions and
concepts, then run redundancy compression into the semantic cache. -/
def updateMemoryLayers (st : MemoryLayer)
    (segs : List (String × List ConversationTurn)) : MemoryLayer :=
  { activeContext := takeLast MAX_ACTIVE_TURNS (segs.map Prod.snd).flatten,
    projectMemory := segs.foldl
      (fun m p =>
        let keyDecisions := extractKeyDecisions p.2
        if keyDecisions.isEmpty then m else assocSet m p.1 keyDecisions)
      st.projectMemory,
    semanticCache := compressRedundantInfo st.semanticCache segs,
    educationalConcepts := segs.foldl
      (fun l p => if p.1 ≠ "general" then insertConcept l p.1 else l)
      st.educationalConcepts }

/-- The text a turn contributes to `countTokens`. -/
def turnText (t : ConversationTurn) : String := roleStr t.role ++ ": " ++ t.content

/-- `countTokens` relative to the abstract external tokenizer `tl` (the
`encode` of the `gpt-tokenizer` npm package is not part of this repository). -/
def countTokens (tl : String → Nat) (turns : List ConversationTurn) : Nat :=
  tl (String.intercalate "\n" (turns.map turnText))

/-- Modelled from the spec: the Token Estimator contract (section 4.1) says a
characters/4 approximation is acceptable, and the in-repo router implements
exactly `Math.ceil(text.length / 4)`; this instantiates the abstract `tl`
standing for the external `gpt-tokenizer` `encode` length. -/
def specTokenLen (s : String) : Nat := (s.length + 3) / 4

/-- The synthetic project-memory turn of `priorityBasedCompression`, built
with the abstract `JSON.stringify` (`js`) and the wall clock (`now`). -/
def memoryTurn (js : List Decision → String) (now : Nat)
    (p : String × List Decision) : ConversationTurn :=
  { role := Role.system, content := "[" ++ p.1 ++ " context]: " ++ js p.2,
    timestamp := now, metadata := some { concept := some p.1, importance := some (Rat.divInt 9 10) } }

/-- The synthetic semantic-cache turn of `priorityBasedCompression`. -/
def cacheTurn (now : Nat) (p : String × String) : ConversationTurn :=
  { role := Role.system, content := "[" ++ p.1 ++ " summary]: " ++ p.2,
    timestamp := now, metadata := some { concept := some p.1, importance := some (Rat.divInt 7 10) } }

/-- Tier 1: add an active-context turn when it keeps the running total within
the budget. -/
def fitActive (tl : String → Nat) (B : Nat) (acc : List ConversationTurn × Nat)
    (t : ConversationTurn) : List ConversationTurn × Nat :=
  let tokens := countTokens tl [t]
  if acc.2 + tokens ≤ B then (acc.1 ++ [t], acc.2 + tokens) else acc

/-- Tier 2: add a project-memory summary turn under the same budget test. -/
def fitMemory (tl : String → Nat) (js : List Decision → String) (B now : Nat)
    (acc : List ConversationTurn × Nat) (p : String × List Decision) :
    List ConversationTurn × Nat :=
  let t := memoryTurn js now p
  let tokens := countTokens tl [t]
  if acc.2 + tokens ≤ B then (acc.1 ++ [t], acc.2 + tokens) else acc

/-- Tier 3: add a semantic-cache turn under the 90%-of-budget test
(`currentTokens + tokens <= maxTokens * 0.9`, exact over the rationals, here
as the equivalent integer comparison). -/
def fitCache (tl : String → Nat) (B now : Nat) (acc : List ConversationTurn × Nat)
    (p : String × String) : List ConversationTurn × Nat :=
  let t := cacheTurn now p
  let tokens := countTokens tl [t]
  if 10 * (acc.2 + tokens) ≤ 9 * B then (acc.1 ++ [t], acc.2 + tokens) else acc

/-- `priorityBasedCompression`: active context, then project memory, then
semantic cache, each in insertion order, each candidate added only if it
fits. -/
def priorityBasedCompression (tl : String → Nat) (js : List Decision → String)
    (st : MemoryLayer) (B now : Nat) : List ConversationTurn :=
  let s1 := st.activeContext.foldl (fitActive tl B) ([], 0)
  let s2 := st.projectMemory.foldl (fitMemory tl js B now) s1
  let s3 := st.semanticCache.foldl (fitCache tl B now) s2
  s3.1

/-- `compressContext`: the public compression operation.  The mutable
`this.memoryLayers` is threaded explicitly, so the result pairs the
`CompressionResult` with the updated state. -/
def compressContext (tl : String → Nat) (js : List Decision → String)
    (st : MemoryLayer) (history : List ConversationTurn) (B now : Nat) :
    CompressionResult × MemoryLayer :=
  let segs := segmentByTopics history
  let st2 := updateMemoryLayers st segs
  let compressed := priorityBasedCompression tl js st2 B now
  let originalTokens := countTokens tl history
  let compressedTokens := countTokens tl compressed
  ({ compressed := compressed,
     compressionRatio := (compressedTokens : ℚ) / (originalTokens : ℚ),
     preservedConcepts := st2.educationalConcepts,
     tokenCount := compressedTokens }, st2)

/-! ## EducationalModelRouter (`src/unnamed/part_002`) -/

/-- The `ModelType` union. -/
inductive ModelType where
  | fast
  | educational
  | validation
  | custom
deriving DecidableEq, Repr

/-- The `OptimizationGoal` union. -/
inductive OptimizationGoal where
  | cost_optimized
  | balanced
  | quality_focused
deriving DecidableEq, Repr

/-- The `TaskType` union. -/
inductive TaskType where
  | simple_parameter_adjustment
  | visualization_generation
  | complex_educational_concept
  | scientific_validation
  | interactive_features
deriving DecidableEq, Repr

/-- The string a task type interpolates to in the fallback reason. -/
def taskTypeStr : TaskType → String
  | TaskType.simple_parameter_adjustment => "simple_parameter_adjustment"
  | TaskType.visualization_generation => "visualization_generation"
  | TaskType.complex_educational_concept => "complex_educational_concept"
  | TaskType.scientific_validation => "scientific_validation"
  | TaskType.interactive_features => "interactive_features"

/-- One `ModelConfig` of the router's catalog. -/
structure ModelConfig where
  name : String
  provider : String
  model : String
  costPerToken : ℚ
  latency : Nat
  capabilities : List TaskType
deriving DecidableEq, Repr

/-- The `'fast'` catalog entry. -/
def fastModel : ModelConfig :=
  { name := "gpt-3.5-turbo", provider := "openai", model := "gpt-3.5-turbo",
    costPerToken := Rat.divInt 5 10000, latency := 300,
    capabilities := [TaskType.simple_parameter_adjustment, TaskType.visualization_generation] }

/-- The `'educational'` catalog entry. -/
def educationalModel : ModelConfig :=
  { name := "gpt-3.5-turbo-16k", provider := "openai", model := "gpt-3.5-turbo-16k",
    costPerToken := Rat.divInt 1 1000, latency := 400,
    capabilities := [TaskType.visualization_generation, TaskType.complex_educational_concept,
                     TaskType.interactive_features] }

/-- The `'validation'` catalog entry. -/
def validationModel : ModelConfig :=
  { name := "gpt-4", provider := "openai", model := "gpt-4",
    costPerToken := Rat.divInt 3 100, latency := 800,
    capabilities := [TaskType.scientific_validation, TaskType.complex_educational_concept] }

/-- `initializeModels`: the static catalog, in insertion order. -/
def initializeModels : List (ModelType × ModelConfig) :=
  [(ModelType.fast, fastModel), (ModelType.educational, educationalModel),
   (ModelType.validation, validationModel)]

/-- The `routingThresholds` per optimization goal. -/
def routingThresholds : OptimizationGoal → ℚ
  | OptimizationGoal.cost_optimized => Rat.divInt 11593 100000
  | OptimizationGoal.balanced => Rat.divInt 8 100
  | OptimizationGoal.quality_focused => Rat.divInt 5 100

/-- The `taskComplexityScores`. -/
def taskComplexityScores : TaskType → ℚ
  | TaskType.simple_parameter_adjustment => Rat.divInt 2 10
  | TaskType.visualization_generation => Rat.divInt 5 10
  | TaskType.complex_educational_concept => Rat.divInt 8 10
  | TaskType.scientific_validation => Rat.divInt 9 10
  | TaskType.interactive_features => Rat.divInt 6 10

/-- The result of `analyzePrompt`. -/
structure PromptAnalysis where
  requiresHighAccuracy : Bool
  isVisualizationTask : Bool
  hasComplexMath : Bool
deriving DecidableEq, Repr

/-- `analyzePrompt`: case-insensitive keyword scans of the prompt. -/
def analyzePrompt (prompt : String) : PromptAnalysis :=
  { requiresHighAccuracy :=
      containsAnyCI prompt ["scientifically accurate", "precise", "exact", "formula"],
    isVisualizationTask :=
      containsAnyCI prompt ["visualise", "visualize", "show", "display", "animate", "interactive"],
    hasComplexMath :=
      containsAnyCI prompt ["integral", "derivative", "differential", "quantum", "relativity"] }

/-- `findCapableModel`: first catalog entry whose capabilities contain the
task type. -/
def findCapableModel (t : TaskType) : Option ModelConfig :=
  (initializeModels.find? (fun p => t ∈ p.2.capabilities)).map Prod.snd

/-- `estimateTokens`: `Math.ceil(text.length / 4)`. -/
def estimateTokens (text : String) : Nat := (text.length + 3) / 4

/-- `calculateConfidence`: 0.5 base, +0.3 on capability match, +0.2 on the
name-based complexity alignment test, capped at 1. -/
def calculateConfidence (m : ModelConfig) (t : TaskType) (complexity : ℚ) : ℚ :=
  let c1 : ℚ := Rat.divInt 1 2 + (if t ∈ m.capabilities then Rat.divInt 3 10 else 0)
  let c2 : ℚ :=
    if complexity < Rat.divInt 3 10 ∧ strContains m.name "fast" then c1 + Rat.divInt 2 10
    else if complexity > Rat.divInt 7 10 ∧ strContains m.name "validation" then c1 + Rat.divInt 2 10
    else c1
  min c2 1

/-- A `RoutingDecision`. -/
structure RoutingDecision where
  model : ModelConfig
  reason : String
  estimatedCost : ℚ
  estimatedLatency : Nat
  confidence : ℚ
deriving DecidableEq, Repr

/-- The first selection step of `routeRequest`: threshold/keyword branching. -/
def initialSelect (taskType : TaskType) (userPrompt : String)
    (optimizationGoal : OptimizationGoal) : ModelConfig × String :=
  let complexity := taskComplexityScores taskType
  let threshold := routingThresholds optimizationGoal
  let promptAnalysis := analyzePrompt userPrompt
  if complexity > threshold ∨ promptAnalysis.requiresHighAccuracy then
    (validationModel, "Complex educational concept requiring high accuracy")
  else if promptAnalysis.isVisualizationTask ∧ complexity > Rat.divInt 3 10 then
    (educationalModel, "D3.js visualization generation task")
  else
    (fastModel, "Simple parameter adjustment or basic task")

/-- The capability check of `routeRequest`: keep the selection when capable,
otherwise fall back to the first capable catalog entry (or, when none exists,
the original selection) and record the fallback reason. -/
def fallbackSelect (taskType : TaskType) (sel1 : ModelConfig × String) :
    ModelConfig × String :=
  if taskType ∈ sel1.1.capabilities then sel1
  else ((findCapableModel taskType).getD sel1.1,
        "Fallback: original model not capable of " ++ taskTypeStr taskType)

/-- `routeRequest`: threshold/keyword selection, capability fallback, cost
estimate and confidence.  The usage-metrics update has no effect on the
decision and is omitted. -/
def routeRequest (taskType : TaskType) (userPrompt context : String)
    (optimizationGoal : OptimizationGoal) : RoutingDecision :=
  let complexity := taskComplexityScores taskType
  let sel2 := fallbackSelect taskType (initialSelect taskType userPrompt optimizationGoal)
  let estimatedTokens := estimateTokens (userPrompt ++ context)
  { model := sel2.1, reason := sel2.2,
    estimatedCost := (estimatedTokens : ℚ) * sel2.1.costPerToken,
    estimatedLatency := sel2.1.latency,
    confidence := calculateConfidence sel2.1 taskType complexity }

/-! ## StreamingValidator (`src/unnamed/part_004`) -/

/-- The `type` union of a `ValidationError` (the source's `'syntax'` literal
is named `syntaxErr` here). -/
inductive ErrKind where
  | syntaxErr
  | semantic
  | educational
  | performance
deriving DecidableEq, Repr

/-- The `severity` union of a `ValidationError`. -/
inductive Severity where
  | error
  | warning
  | info
deriving DecidableEq, Repr

/-- A `ValidationError`. -/
structure ValidationError where
  type : ErrKind
  severity : Severity
  message : String
  line : Option Nat := none
  column : Option Nat := none
  suggestion : Option String := none
deriving DecidableEq, Repr

/-- A `ValidationResult`. -/
structure ValidationResult where
  isValid : Bool
  errors : List ValidationError
  warnings : List ValidationError
  suggestions : List String
  scientificAccuracy : Option ℚ := none
  pedagogicalQuality : Option ℚ := none
deriving DecidableEq, Repr

/-- The error acorn's `parse` throws: message and location. -/
structure AcornError where
  message : String
  line : Option Nat := none
  column : Option Nat := none
deriving DecidableEq, Repr

/-- Oracle for the external `acorn` parser: `parse` returns the thrown
error, if any, and `astWarnings` the warnings the `acorn-walk` pass of
`performASTValidation` collects from the parsed tree (that pass pushes only
warnings, never errors, as the source shows).  `acorn` is an npm dependency,
not code of this repository, so it enters the embedding as this abstract
oracle, instantiated concretely where a claim needs a concrete buffer. -/
structure AcornOracle where
  parse : String → Option AcornError
  astWarnings : String → List ValidationError

/-- `checkSyntax`: parse and convert a thrown error. -/
def checkSyntax (o : AcornOracle) (code : String) : Bool × List ValidationError :=
  match o.parse code with
  | none => (true, [])
  | some e =>
    (false, [{ type := ErrKind.syntaxErr, severity := Severity.error,
               message := e.message, line := e.line, column := e.column }])

/-- `performASTValidation`: (errors, warnings).  The source never pushes to
its `errors` array; the walk's warnings come from the oracle, and a parse
throw is swallowed leaving both lists empty. -/
def performASTValidation (o : AcornOracle) (code : String) :
    List ValidationError × List ValidationError :=
  ([], match o.parse code with
       | none => o.astWarnings code
       | some _ => [])

/-- `educationalPatterns.hasVisualizationContainer`:
`/#visualization|\.select\(['"]#visualization/`. -/
def hasVisualizationContainer (s : String) : Bool :=
  strContains s "#visualization" ||
  strContains s (".select(" ++ squo ++ "#visualization") ||
  strContains s (".select(\"#visualization")

/-- `educationalPatterns.hasInteractivity`:
`/\.on\(['"](?:click|mouseover|mousemove|drag)/`. -/
def hasInteractivity (s : String) : Bool :=
  ["click", "mouseover", "mousemove", "drag"].any
    (fun ev => strContains s (".on(" ++ squo ++ ev) || strContains s (".on(\"" ++ ev))

/-- `educationalPatterns.hasLabels`: `/\.text\(|\.append\(['"]text/`. -/
def hasLabels (s : String) : Bool :=
  strContains s ".text(" ||
  strContains s (".append(" ++ squo ++ "text") ||
  strContains s (".append(\"text")

/-- `educationalPatterns.hasScales`: `/scale(?:Linear|Log|Time|Ordinal)/`. -/
def hasScales (s : String) : Bool :=
  ["scaleLinear", "scaleLog", "scaleTime", "scaleOrdinal"].any (strContains s)

/-- `educationalPatterns.hasAccessibility`: `/aria-|role=/`. -/
def hasAccessibility (s : String) : Bool :=
  strContains s "aria-" || strContains s "role="

/-- What `checkEducationalQuality` returns. -/
structure EduCheck where
  warnings : List ValidationError
  suggestions : List String
  quality : ℚ
deriving DecidableEq, Repr

/-- `checkEducationalQuality`: container, interactivity, labels and scales
checks; weighted penalties off a 1.0 base, floor-clamped at 0 on return.
Note the missing-container finding carries severity `error` but is pushed to
the `warnings` list. -/
def checkEducationalQuality (buffer : String) : EduCheck :=
  let container := hasVisualizationContainer buffer
  let interactivity := hasInteractivity buffer
  let labels := hasLabels buffer
  let scales := hasScales buffer
  let quality : ℚ := 1 - (if container then 0 else Rat.divInt 3 10)
    - (if interactivity then 0 else Rat.divInt 1 10) - (if labels then 0 else Rat.divInt 2 10)
  { warnings :=
      (if container then [] else
        [{ type := ErrKind.educational, severity := Severity.error,
           message := "No #visualization container found",
           suggestion := some "Ensure code targets the #visualization element" }]) ++
      (if labels then [] else
        [{ type := ErrKind.educational, severity := Severity.warning,
           message := "No text labels found",
           suggestion := some "Add labels to explain the visualization" }]),
    suggestions :=
      (if interactivity then [] else
        ["Consider adding interactive elements for better engagement"]) ++
      (if scales then [] else
        ["Consider using D3 scales for proper data mapping"]),
    quality := max 0 quality }

/-- Skip `\s*`. -/
def skipWsL (cs : List Char) : List Char := cs.dropWhile isWsChar

/-- Match `/g\s*=\s*(9\.8[01]?|10)/` at the current position (for `test`,
the optional `[01]?` may match empty, so a `9.8` prefix suffices). -/
def gravityAt (cs : List Char) : Bool :=
  match cs with
  | [] => false
  | c :: rest =>
    c = Char.ofNat 103 &&
    (match skipWsL rest with
     | [] => false
     | c2 :: rest2 =>
       c2 = Char.ofNat 61 &&
       (let r3 := skipWsL rest2
        "9.8".toList.isPrefixOf r3 || "10".toList.isPrefixOf r3))

/-- Does `p` match at some position of the list? -/
def anySuffix (p : List Char → Bool) : List Char → Bool
  | [] => p []
  | c :: t => p (c :: t) || anySuffix p t

/-- `scientificPatterns.physics.gravity` as a whole-string test. -/
def hasGravityPattern (s : String) : Bool := anySuffix gravityAt s.toList

/-- The literal chunks of `/2\s*\*\s*Math\.PI\s*\*\s*Math\.sqrt/`, with `\s*`
between consecutive chunks. -/
def pendulumChunks : List (List Char) :=
  ["2", "*", "Math.PI", "*", "Math.sqrt"].map String.toList

/-- Match literal chunks separated by `\s*` from the current position. -/
def matchChunksFrom : List (List Char) → List Char → Bool
  | [], _ => true
  | w :: ws, cs => w.isPrefixOf cs && matchChunksFrom ws (skipWsL (cs.drop w.length))

/-- `scientificPatterns.physics.pendulumFormula` as a whole-string test. -/
def hasPendulumFormula (s : String) : Bool :=
  anySuffix (matchChunksFrom pendulumChunks) s.toList

/-- `checkScientificAccuracy`: the gravity-constant and pendulum-formula
checks (warnings only; accuracy floor-clamped at 0). -/
def checkScientificAccuracy (buffer : String) : List ValidationError × ℚ :=
  let gravityBad := (strContains buffer "gravity" || strContains buffer "9.8") &&
    !hasGravityPattern buffer
  let w1 : List ValidationError :=
    if gravityBad then
      [{ type := ErrKind.educational, severity := Severity.warning,
         message := "Gravity constant may be inaccurate",
         suggestion := some ("Use g = 9.81 m/s² for Earth" ++ squo ++ "s gravity") }]
    else []
  let w2 : List ValidationError :=
    if strContains buffer "pendulum" && !hasPendulumFormula buffer then
      [{ type := ErrKind.educational, severity := Severity.info,
         message := "Pendulum period formula not found",
         suggestion := some "Period T = 2π√(L/g) for small angles" }]
    else []
  (w1 ++ w2, max 0 (if gravityBad then 1 - Rat.divInt 2 10 else 1))

/-- `checkPerformanceComplete`: flag more than 100 `.append(` calls. -/
def checkPerformanceComplete (buffer : String) : List ValidationError :=
  let appendCount := countSubstr buffer ".append("
  if appendCount > 100 then
    [{ type := ErrKind.performance, severity := Severity.warning,
       message := "High number of append operations (" ++ toString appendCount ++ ")",
       suggestion := some "Consider using enter/update/exit pattern for efficiency" }]
  else []

/-- `checkAccessibility`: accessibility and contrast suggestions. -/
def checkAccessibility (buffer : String) : List String :=
  (if hasAccessibility buffer then [] else
    ["Consider adding ARIA labels for screen reader accessibility"]) ++
  (if strContains buffer "fill" || strContains buffer "stroke" then
    ["Ensure sufficient color contrast for visibility"]
   else [])

/-- `validateComplete`: full battery after generation, short-circuiting on a
parse failure with the defaults `scientificAccuracy = pedagogicalQuality = 1`
untouched, and otherwise `isValid` true iff the error list is empty. -/
def validateComplete (o : AcornOracle) (buffer : String) : ValidationResult :=
  let syn := checkSyntax o buffer
  if !syn.1 then
    { isValid := false, errors := syn.2, warnings := [], suggestions := [],
      scientificAccuracy := some 1, pedagogicalQuality := some 1 }
  else
    let sem := performASTValidation o buffer
    let edu := checkEducationalQuality buffer
    let sci := checkScientificAccuracy buffer
    let perf := checkPerformanceComplete buffer
    let access := checkAccessibility buffer
    let errs := sem.1
    { isValid := errs.isEmpty, errors := errs,
      warnings := sem.2 ++ edu.warnings ++ sci.1 ++ perf,
      suggestions := edu.suggestions ++ access,
      scientificAccuracy := some sci.2,
      pedagogicalQuality := some edu.quality }

/-! ## Derived notions and concrete instances used by the claims -/

/-- The turn fields `countTokens` and the budget tests can see: everything
but the timestamp, which only `Date.now()` sets on synthetic turns. -/
def stripTs (t : ConversationTurn) : Role × String × Option TurnMetadata :=
  (t.role, t.content, t.metadata)

/-- The sum of the single-turn token counts of a turn list: exactly the
quantity `priorityBasedCompression` accumulates in `currentTokens`. -/
def sumTurnTokens (tl : String → Nat) (l : List ConversationTurn) : Nat :=
  (l.map (fun t => countTokens tl [t])).sum

/-- A user turn without metadata. -/
def userTurn (c : String) (ts : Nat) : ConversationTurn :=
  { role := Role.user, content := c, timestamp := ts }

/-- A concrete stand-in for the abstract `JSON.stringify`, used only to close
counterexamples whose statements never consult serialized decisions. -/
def jsEmpty : List Decision → String := fun _ => ""

/-- Ten two-character user turns: each costs 2 tokens under `specTokenLen`,
and the newline separators of the final joined recount push the reported
token count past the budget. -/
def tenTurns : List ConversationTurn :=
  [userTurn "ab" 0, userTurn "ab" 1, userTurn "ab" 2, userTurn "ab" 3, userTurn "ab" 4,
   userTurn "ab" 5, userTurn "ab" 6, userTurn "ab" 7, userTurn "ab" 8, userTurn "ab" 9]

/-- Two duplicate turns: the semantic-cache summary turn then outweighs the
original history. -/
def twoTurns : List ConversationTurn := [userTurn "ab" 0, userTurn "ab" 1]

/-- A single parameter-definition turn (stores a key decision). -/
def oneSetTurn : List ConversationTurn := [userTurn "set a" 5]

/-- First history of the project-memory overwrite scenario. -/
def historyAB : List ConversationTurn := [userTurn "set a" 0, userTurn "set b" 1]

/-- Second history of the project-memory overwrite scenario. -/
def historyC : List ConversationTurn := [userTurn "set c" 2]

/-- The near-identical turn of the 50-duplicate scenario. -/
def lengthTurn : ConversationTurn := userTurn "set length to 2m" 0

/-- Fifty near-identical turns under one topic. -/
def fiftyTurns : List ConversationTurn := List.replicate 50 lengthTurn

/-- The finalized buffer of the missing-container scenario:
`d3.select('body').append('div')`. -/
def c1Buffer : String :=
  "d3.select(" ++ squo ++ "body" ++ squo ++ ").append(" ++ squo ++ "div" ++ squo ++ ")"

/-- Acorn oracle for buffers it parses without findings: `acorn` accepts
`c1Buffer` and the short witness buffers used below, and the
`performASTValidation` walk produces no warnings on them (no `#`-selector
argument, no `.data(` call). -/
def acornOk : AcornOracle := { parse := fun _ => none, astWarnings := fun _ => [] }

/-- A buffer with mismatched braces. -/
def c8Buffer : String := "function broken() \x7b"

/-- Acorn oracle for `c8Buffer`: `acorn.parse` throws `Unexpected token` at
the end of the unclosed function body. -/
def acornFail : AcornOracle :=
  { parse := fun _ => some { message := "Unexpected token (1:19)", line := some 1, column := some 19 },
    astWarnings := fun _ => [] }

set_option maxRecDepth 8000

/-! ## Helper lemmas -/

/-- Every task type has a capable catalog entry, and it is one of the three
configured models. -/
theorem findCapableModel_capable (t : TaskType) :
    ∃ m, findCapableModel t = some m ∧ t ∈ m.capabilities ∧
      (m = fastModel ∨ m = educationalModel ∨ m = validationModel) := by
  cases t
  · exact ⟨fastModel, by decide, by decide, Or.inl rfl⟩
  · exact ⟨fastModel, by decide, by decide, Or.inl rfl⟩
  · exact ⟨educationalModel, by decide, by decide, Or.inr (Or.inl rfl)⟩
  · exact ⟨validationModel, by decide, by decide, Or.inr (Or.inr rfl)⟩
  · exact ⟨educationalModel, by decide, by decide, Or.inr (Or.inl rfl)⟩

/-- After the capability fallback, the chosen model always supports the task
type (the static catalog covers every task type). -/
theorem fallbackSelect_capable (t : TaskType) (sel1 : ModelConfig × String) :
    t ∈ (fallbackSelect t sel1).1.capabilities := by
  unfold fallbackSelect
  split
  · assumption
  · obtain ⟨m, hm, hmem, _⟩ := findCapableModel_capable t
    rw [hm]
    simpa using hmem

/-- The initial selection is one of the three configured models. -/
theorem initialSelect_mem (t : TaskType) (p : String) (g : OptimizationGoal) :
    (initialSelect t p g).1 = fastModel ∨ (initialSelect t p g).1 = educationalModel ∨
      (initialSelect t p g).1 = validationModel := by
  simp only [initialSelect]
  split_ifs <;> simp

/-- The fallback keeps the selection inside the catalog. -/
theorem fallbackSelect_mem (t : TaskType) (sel1 : ModelConfig × String)
    (h : sel1.1 = fastModel ∨ sel1.1 = educationalModel ∨ sel1.1 = validationModel) :
    (fallbackSelect t sel1).1 = fastModel ∨ (fallbackSelect t sel1).1 = educationalModel ∨
      (fallbackSelect t sel1).1 = validationModel := by
  unfold fallbackSelect
  split
  · exact h
  · obtain ⟨m, hm, _, hcat⟩ := findCapableModel_capable t
    rw [hm]
    simpa using hcat

/-- No configured model's name contains `fast` or `validation`, so the
complexity-alignment bonus of `calculateConfidence` never fires. -/
theorem catalog_name_plain (m : ModelConfig)
    (h : m = fastModel ∨ m = educationalModel ∨ m = validationModel) :
    strContains m.name "fast" = false ∧ strContains m.name "validation" = false := by
  rcases h with h | h | h <;> subst h <;> exact ⟨by decide, by decide⟩

/-- For a capable model whose name has no alignment keyword, the confidence
is exactly 0.5 + 0.3 = 0.8. -/
theorem calculateConfidence_eq (m : ModelConfig) (t : TaskType) (c : ℚ)
    (hcap : t ∈ m.capabilities)
    (hf : strContains m.name "fast" = false)
    (hv : strContains m.name "validation" = false) :
    calculateConfidence m t c = 4/5 := by
  simp only [calculateConfidence, hf, hv, Bool.false_eq_true, and_false, if_false,
    if_pos hcap]
  rw [min_eq_left (by norm_num [Rat.divInt_eq_div])]
  norm_num [Rat.divInt_eq_div]

/-! ## C6 and C7: routing claims -/

/-- C6: for every task type, optimization goal, prompt and context, `route`
either names a tier whose capability set contains the task type or carries a
reason indicating a fallback.  (In fact the left disjunct always holds: the
fallback search succeeds for every task type of the static catalog.) -/
theorem c6_route_capable_or_fallback (t : TaskType) (p c : String) (g : OptimizationGoal) :
    t ∈ (routeRequest t p c g).model.capabilities ∨
      "Fallback:".isPrefixOf (routeRequest t p c g).reason = true :=
  Or.inl (fallbackSelect_capable t _)

/-- Witness for C6 at a concrete input. -/
theorem c6_route_capable_or_fallback_witness :
    TaskType.scientific_validation ∈
        (routeRequest TaskType.scientific_validation "make it precise" ""
          OptimizationGoal.balanced).model.capabilities ∨
      "Fallback:".isPrefixOf
          (routeRequest TaskType.scientific_validation "make it precise" ""
            OptimizationGoal.balanced).reason = true :=
  c6_route_capable_or_fallback TaskType.scientific_validation "make it precise" ""
    OptimizationGoal.balanced

/-- C7 (amended): the alignment bonus compares the model's `name` against
the substrings `fast`/`validation`, which no catalog name contains, while
the capability bonus always applies after the fallback; so every routing
decision has confidence exactly 0.8. -/
theorem c7_confidence_always_point_eight (t : TaskType) (p c : String)
    (g : OptimizationGoal) : (routeRequest t p c g).confidence = 4/5 := by
  have hmem := fallbackSelect_mem t (initialSelect t p g) (initialSelect_mem t p g)
  have hname := catalog_name_plain _ hmem
  exact calculateConfidence_eq _ _ _ (fallbackSelect_capable t _) hname.1 hname.2

/-- Witness for C7's amended theorem at a concrete input. -/
theorem c7_confidence_always_point_eight_witness :
    (routeRequest TaskType.visualization_generation "visualize a pendulum" ""
      OptimizationGoal.balanced).confidence = 4/5 :=
  c7_confidence_always_point_eight TaskType.visualization_generation
    "visualize a pendulum" "" OptimizationGoal.balanced

/-- C7 counterexample: routing a `scientific_validation` task (complexity
0.9) under `quality_focused` selects the validation tier, which supports it,
yet the confidence is 0.8, not the claimed 1.0. -/
theorem c7_counterexample :
    (routeRequest TaskType.scientific_validation "" ""
        OptimizationGoal.quality_focused).model = validationModel ∧
      TaskType.scientific_validation ∈
        (routeRequest TaskType.scientific_validation "" ""
          OptimizationGoal.quality_focused).model.capabilities ∧
      (routeRequest TaskType.scientific_validation "" ""
        OptimizationGoal.quality_focused).confidence = 4/5 ∧
      (4/5 : ℚ) ≠ 1 := by
  refine ⟨by decide, by decide, ?_, by norm_num⟩
  show calculateConfidence
      (fallbackSelect TaskType.scientific_validation
        (initialSelect TaskType.scientific_validation "" OptimizationGoal.quality_focused)).1
      TaskType.scientific_validation
      (taskComplexityScores TaskType.scientific_validation) = 4/5
  exact calculateConfidence_eq _ _ _ (by decide) (by decide) (by decide)

/-! ## C8, C10 and C1: validator claims -/

/-- C8: a buffer failing the full syntax parse yields `isValid = false` with
exactly the one syntax-category error, no warnings or suggestions, and the
scientific/pedagogical sub-scores left at their default 1.0. -/
theorem c8_syntax_failure_short_circuits (o : AcornOracle) (buffer : String)
    (e : AcornError) (h : o.parse buffer = some e) :
    validateComplete o buffer =
      { isValid := false,
        errors := [{ type := ErrKind.syntaxErr, severity := Severity.error,
                     message := e.message, line := e.line, column := e.column }],
        warnings := [], suggestions := [],
        scientificAccuracy := some 1, pedagogicalQuality := some 1 } := by
  simp [validateComplete, checkSyntax, h]

/-- Witness for C8: the mismatched-brace buffer under its acorn oracle. -/
theorem c8_syntax_failure_short_circuits_witness :
    validateComplete acornFail c8Buffer =
      { isValid := false,
        errors := [{ type := ErrKind.syntaxErr, severity := Severity.error,
                     message := "Unexpected token (1:19)", line := some 1, column := some 19 }],
        warnings := [], suggestions := [],
        scientificAccuracy := some 1, pedagogicalQuality := some 1 } :=
  c8_syntax_failure_short_circuits acornFail c8Buffer
    { message := "Unexpected token (1:19)", line := some 1, column := some 19 } rfl

/-- C10: whenever the buffer parses, the final result is valid with an empty
error list — every non-syntax finding lands in warnings or suggestions. -/
theorem c10_parse_ok_always_valid (o : AcornOracle) (buffer : String)
    (h : o.parse buffer = none) :
    (validateComplete o buffer).isValid = true ∧ (validateComplete o buffer).errors = [] := by
  simp [validateComplete, checkSyntax, performASTValidation, h]

/-- Witness for C10 at a concrete parsed buffer. -/
theorem c10_parse_ok_always_valid_witness :
    (validateComplete acornOk "const x = 1;").isValid = true ∧
      (validateComplete acornOk "const x = 1;").errors = [] :=
  c10_parse_ok_always_valid acornOk "const x = 1;" rfl

/-- C1 counterexample: on `d3.select('body').append('div')` the final result
has `isValid = true` and an empty error list — not the claimed
educational-category error with `isValid = false`. -/
theorem c1_counterexample :
    (validateComplete acornOk c1Buffer).isValid = true ∧
      (validateComplete acornOk c1Buffer).errors = [] := by
  decide

/-- C1 (amended): the missing-container finding is emitted as an
educational-category entry of severity `error`, but it is pushed to the
warnings list (together with the missing-labels warning), so the final
result keeps `isValid = true` and an empty errors list. -/
theorem c1_missing_container_goes_to_warnings :
    (validateComplete acornOk c1Buffer).isValid = true ∧
      (validateComplete acornOk c1Buffer).errors = [] ∧
      (validateComplete acornOk c1Buffer).warnings.map (fun w => (w.type, w.severity)) =
        [(ErrKind.educational, Severity.error), (ErrKind.educational, Severity.warning)] := by
  decide

/-! ## C2: the running token total never exceeds the budget -/

/-- Appending one turn adds its single-turn count to the running sum. -/
theorem sumTurnTokens_append (tl : String → Nat) (l : List ConversationTurn)
    (t : ConversationTurn) :
    sumTurnTokens tl (l ++ [t]) = sumTurnTokens tl l + countTokens tl [t] := by
  simp [sumTurnTokens]

/-- Fold invariant shared by the three assembly tiers: every step either
keeps the accumulator or appends a turn whose cost keeps the total within
the budget, so the running total stays equal to the sum of per-turn counts
and within the budget. -/
theorem fitFold_invariant {α : Type} (tl : String → Nat) (B : Nat)
    (f : List ConversationTurn × Nat → α → List ConversationTurn × Nat)
    (hf : ∀ acc x, f acc x = acc ∨
      ∃ t, f acc x = (acc.1 ++ [t], acc.2 + countTokens tl [t]) ∧
        acc.2 + countTokens tl [t] ≤ B)
    (l : List α) (acc : List ConversationTurn × Nat)
    (h1 : acc.2 = sumTurnTokens tl acc.1) (h2 : acc.2 ≤ B) :
    (l.foldl f acc).2 = sumTurnTokens tl (l.foldl f acc).1 ∧ (l.foldl f acc).2 ≤ B := by
  induction l generalizing acc with
  | nil => exact ⟨h1, h2⟩
  | cons x xs ih =>
    rcases hf acc x with h | ⟨t, ht, hle⟩
    · rw [List.foldl_cons, h]
      exact ih acc h1 h2
    · rw [List.foldl_cons, ht]
      refine ih _ ?_ hle
      rw [sumTurnTokens_append, ← h1]

/-- `fitActive` satisfies the step property. -/
theorem fitActive_step (tl : String → Nat) (B : Nat)
    (acc : List ConversationTurn × Nat) (t : ConversationTurn) :
    fitActive tl B acc t = acc ∨
      ∃ u, fitActive tl B acc t = (acc.1 ++ [u], acc.2 + countTokens tl [u]) ∧
        acc.2 + countTokens tl [u] ≤ B := by
  simp only [fitActive]
  split
  · exact Or.inr ⟨t, rfl, by assumption⟩
  · exact Or.inl rfl

/-- `fitMemory` satisfies the step property. -/
theorem fitMemory_step (tl : String → Nat) (js : List Decision → String) (B now : Nat)
    (acc : List ConversationTurn × Nat) (p : String × List Decision) :
    fitMemory tl js B now acc p = acc ∨
      ∃ u, fitMemory tl js B now acc p = (acc.1 ++ [u], acc.2 + countTokens tl [u]) ∧
        acc.2 + countTokens tl [u] ≤ B := by
  simp only [fitMemory]
  split
  · exact Or.inr ⟨memoryTurn js now p, rfl, by assumption⟩
  · exact Or.inl rfl

/-- `fitCache` satisfies the step property: its tighter 90% test implies the
budget test. -/
theorem fitCache_step (tl : String → Nat) (B now : Nat)
    (acc : List ConversationTurn × Nat) (p : String × String) :
    fitCache tl B now acc p = acc ∨
      ∃ u, fitCache tl B now acc p = (acc.1 ++ [u], acc.2 + countTokens tl [u]) ∧
        acc.2 + countTokens tl [u] ≤ B := by
  simp only [fitCache]
  split
  · refine Or.inr ⟨cacheTurn now p, rfl, ?_⟩
    omega
  · exact Or.inl rfl

/-- C2 (amended): every candidate is added only when it fits, so the sum of
single-turn token counts of the compressed sequence never exceeds the
budget.  (The reported `tokenCount` instead re-measures the newline-joined
text, which can exceed this sum — see the counterexample.) -/
theorem c2_running_total_within_budget (tl : String → Nat)
    (js : List Decision → String) (st : MemoryLayer)
    (H : List ConversationTurn) (B now : Nat) :
    sumTurnTokens tl ((compressContext tl js st H B now).1.compressed) ≤ B := by
  show sumTurnTokens tl
    (priorityBasedCompression tl js (updateMemoryLayers st (segmentByTopics H)) B now) ≤ B
  unfold priorityBasedCompression
  have h1 := fitFold_invariant tl B (fitActive tl B) (fitActive_step tl B)
    (updateMemoryLayers st (segmentByTopics H)).activeContext ([], 0)
    (by simp [sumTurnTokens]) (Nat.zero_le B)
  have h2 := fitFold_invariant tl B (fitMemory tl js B now) (fitMemory_step tl js B now)
    (updateMemoryLayers st (segmentByTopics H)).projectMemory _ h1.1 h1.2
  have h3 := fitFold_invariant tl B (fitCache tl B now) (fitCache_step tl B now)
    (updateMemoryLayers st (segmentByTopics H)).semanticCache _ h2.1 h2.2
  rw [← h3.1]
  exact h3.2

/-- C2 counterexample (under the spec's characters/4 token estimator): ten
active-context turns of 2 tokens each exactly fill the budget 20, yet the
returned `tokenCount` re-measures the newline-joined text and reports 23,
which exceeds the budget plus the 2-token size of every active-context turn. -/
theorem c2_counterexample :
    (compressContext specTokenLen jsEmpty emptyMemory tenTurns 20 0).1.compressed =
        (updateMemoryLayers emptyMemory (segmentByTopics tenTurns)).activeContext ∧
      ((compressContext specTokenLen jsEmpty emptyMemory tenTurns 20 0).1.compressed.map
        (fun t => countTokens specTokenLen [t])) = [2, 2, 2, 2, 2, 2, 2, 2, 2, 2] ∧
      (compressContext specTokenLen jsEmpty emptyMemory tenTurns 20 0).1.tokenCount = 23 ∧
      20 + 2 < 23 := by
  decide

/-- Witness for C2's amended theorem at the counterexample's input. -/
theorem c2_running_total_within_budget_witness :
    sumTurnTokens specTokenLen
      ((compressContext specTokenLen jsEmpty emptyMemory tenTurns 20 0).1.compressed) ≤ 20 :=
  c2_running_total_within_budget specTokenLen jsEmpty emptyMemory tenTurns 20 0

/-! ## C4: the compression ratio -/

/-- The ratio field is by construction the compressed token count over the
original token count. -/
theorem compressionRatio_def (tl : String → Nat) (js : List Decision → String)
    (st : MemoryLayer) (H : List ConversationTurn) (B now : Nat) :
    (compressContext tl js st H B now).1.compressionRatio =
      ((compressContext tl js st H B now).1.tokenCount : ℚ) / (countTokens tl H : ℚ) :=
  rfl

/-- C4 (amended): for a non-empty history of positive original token count
the ratio equals compressed/original token count and is nonnegative — but it
is not confined to (0,1]: the budget can push it to 0 and synthetic summary
turns can push it above 1 (see the counterexample). -/
theorem c4_ratio_nonneg (tl : String → Nat) (js : List Decision → String)
    (st : MemoryLayer) (H : List ConversationTurn) (B now : Nat)
    (hne : H ≠ []) (hpos : 0 < countTokens tl H) :
    0 ≤ (compressContext tl js st H B now).1.compressionRatio ∧
      (compressContext tl js st H B now).1.compressionRatio =
        ((compressContext tl js st H B now).1.tokenCount : ℚ) / (countTokens tl H : ℚ) := by
  refine ⟨?_, rfl⟩
  rw [compressionRatio_def]
  positivity

/-- Witness for C4's amended theorem at a concrete input. -/
theorem c4_ratio_nonneg_witness :
    0 ≤ (compressContext specTokenLen jsEmpty emptyMemory twoTurns 8000 0).1.compressionRatio ∧
      (compressContext specTokenLen jsEmpty emptyMemory twoTurns 8000 0).1.compressionRatio =
        ((compressContext specTokenLen jsEmpty emptyMemory twoTurns 8000 0).1.tokenCount : ℚ) /
          (countTokens specTokenLen twoTurns : ℚ) :=
  c4_ratio_nonneg specTokenLen jsEmpty emptyMemory twoTurns 8000 0 (by decide) (by decide)

/-- C4 counterexample (under the spec's characters/4 token estimator): with
budget 0 the ratio is 0, not strictly positive; with two duplicate turns and
a large budget the semantic-cache summary turn pushes the ratio to 12/5,
above 1 — in both cases the history is non-empty with positive original
token count. -/
theorem c4_counterexample :
    [userTurn "ab" 0] ≠ [] ∧ 0 < countTokens specTokenLen [userTurn "ab" 0] ∧
      (compressContext specTokenLen jsEmpty emptyMemory [userTurn "ab" 0] 0 0).1.compressionRatio
        = 0 ∧
      twoTurns ≠ [] ∧ 0 < countTokens specTokenLen twoTurns ∧
      (compressContext specTokenLen jsEmpty emptyMemory twoTurns 8000 0).1.compressionRatio
        = 12/5 ∧
      ¬(0 < (0 : ℚ)) ∧ ¬((12/5 : ℚ) ≤ 1) := by
  refine ⟨by decide, by decide, ?_, by decide, by decide, ?_, by norm_num, by norm_num⟩
  · rw [compressionRatio_def,
      show (compressContext specTokenLen jsEmpty emptyMemory [userTurn "ab" 0] 0 0).1.tokenCount
        = 0 from by decide,
      show countTokens specTokenLen [userTurn "ab" 0] = 2 from by decide]
    norm_num
  · rw [compressionRatio_def,
      show (compressContext specTokenLen jsEmpty emptyMemory twoTurns 8000 0).1.tokenCount
        = 12 from by decide,
      show countTokens specTokenLen twoTurns = 5 from by decide]
    norm_num

/-! ## C5: near-duplicate turns within a topic -/

/-- The single-character splitter never returns an empty list. -/
theorem splitChar_ne_nil (sep : Char) (cs acc : List Char) : splitChar sep cs acc ≠ [] := by
  induction cs generalizing acc with
  | nil => simp [splitChar]
  | cons c t ih =>
    simp only [splitChar]
    split
    · simp
    · exact ih _

/-- The word union of two strings is never empty (JS `split` always yields at
least one piece). -/
theorem unionCount_pos (s1 s2 : String) : 0 < unionCount s1 s2 := by
  unfold unionCount
  rw [List.length_pos]
  intro hcon
  rw [List.dedup_eq_nil, List.append_eq_nil] at hcon
  exact splitChar_ne_nil _ _ _ hcon.1

/-- A deduplicated membership filter counts the intersection of the word
sets. -/
theorem filter_dedup_card (u v : List String) :
    ((u.dedup).filter (fun w => w ∈ v)).length = (u.toFinset ∩ v.toFinset).card := by
  have hnd : ((u.dedup).filter (fun w => w ∈ v)).Nodup :=
    (List.nodup_dedup u).filter _
  rw [← List.toFinset_card_of_nodup hnd, List.toFinset_filter]
  congr 1
  ext a
  simp [List.mem_dedup, List.mem_toFinset]

/-- The deduplicated concatenation counts the union of the word sets. -/
theorem dedup_append_card (u v : List String) :
    ((u ++ v).dedup).length = (u.toFinset ∪ v.toFinset).card := by
  rw [← List.toFinset_card_of_nodup (List.nodup_dedup (u ++ v))]
  congr 1
  ext a
  simp [List.mem_dedup, List.mem_toFinset]

/-- `interCount` is symmetric. -/
theorem interCount_comm (s1 s2 : String) : interCount s1 s2 = interCount s2 s1 := by
  unfold interCount
  rw [filter_dedup_card, filter_dedup_card, Finset.inter_comm]

/-- `unionCount` is symmetric. -/
theorem unionCount_comm (s1 s2 : String) : unionCount s1 s2 = unionCount s2 s1 := by
  unfold unionCount
  rw [dedup_append_card, dedup_append_card, Finset.union_comm]

/-- The Jaccard similarity is symmetric. -/
theorem calculateSimilarity_comm (s1 s2 : String) :
    calculateSimilarity s1 s2 = calculateSimilarity s2 s1 := by
  unfold calculateSimilarity
  rw [interCount_comm, unionCount_comm]

/-- The integer duplicate test agrees with the source's
`calculateSimilarity(a, b) > 0.85`. -/
theorem simGT85_iff (s1 s2 : String) :
    simGT85 s1 s2 = true ↔ 17/20 < calculateSimilarity s1 s2 := by
  unfold simGT85 calculateSimilarity
  rw [decide_eq_true_eq]
  have hu : (0 : ℚ) < (unionCount s1 s2 : ℚ) := by exact_mod_cast unionCount_pos s1 s2
  rw [div_lt_div_iff₀ (by norm_num) hu, mul_comm ((interCount s1 s2 : ℚ)) 20]
  exact_mod_cast Iff.rfl

/-- Invariant of the redundancy fold: the seen-set is exactly the simplified
contents of the retained turns, and every retained turn was tested against
all earlier retained turns without exceeding the similarity bound. -/
theorem redundantFold_invariant (ts : List ConversationTurn) :
    ∀ st : List String × List ConversationTurn,
      st.1 = st.2.map (fun t => simplifyContent t.content) →
      st.2.Pairwise
        (fun a b => simGT85 (simplifyContent b.content) (simplifyContent a.content) = false) →
      (ts.foldl redundantStep st).1 =
          (ts.foldl redundantStep st).2.map (fun t => simplifyContent t.content) ∧
        (ts.foldl redundantStep st).2.Pairwise
          (fun a b => simGT85 (simplifyContent b.content) (simplifyContent a.content) = false) := by
  induction ts with
  | nil => exact fun st h1 h2 => ⟨h1, h2⟩
  | cons t rest ih =>
    intro st h1 h2
    rw [List.foldl_cons]
    by_cases hany :
        st.1.any (fun existing => simGT85 (simplifyContent t.content) existing) = true
    · have hst : redundantStep st t = st := by
        simp only [redundantStep]
        rw [if_pos hany]
      rw [hst]
      exact ih st h1 h2
    · have hst : redundantStep st t =
          (st.1 ++ [simplifyContent t.content], st.2 ++ [t]) := by
        simp only [redundantStep]
        rw [if_neg hany]
      rw [hst]
      refine ih _ ?_ ?_
      · simp [h1]
      · rw [List.pairwise_append]
        refine ⟨h2, List.pairwise_singleton _ _, ?_⟩
        intro a ha b hb
        rw [List.mem_singleton] at hb
        subst hb
        have hmem : simplifyContent a.content ∈ st.1 := by
          rw [h1]
          exact List.mem_map_of_mem _ ha
        rw [List.any_eq_true] at hany
        push_neg at hany
        simpa using hany (simplifyContent a.content) hmem

/-- C5: within one topic's turns, any two retained turns have normalized
Jaccard similarity at most 0.85 (so two turns above the 0.85 bound are never
both retained); and on fifty near-identical turns exactly one is retained
while a semantic-cache summary is stored for the topic. -/
theorem c5_redundancy_compression :
    (∀ ts : List ConversationTurn,
      (redundantRetained ts).Pairwise (fun a b =>
        calculateSimilarity (simplifyContent a.content) (simplifyContent b.content) ≤ 17/20)) ∧
      redundantRetained fiftyTurns = [lengthTurn] ∧
      assocLookup (updateMemoryLayers emptyMemory (segmentByTopics fiftyTurns)).semanticCache
        "general" = some "set length to 2m" := by
  refine ⟨?_, by decide, by decide⟩
  intro ts
  have h := (redundantFold_invariant ts ([], []) rfl List.Pairwise.nil).2
  refine h.imp ?_
  intro a b hab
  have hnot : ¬(17/20 <
      calculateSimilarity (simplifyContent b.content) (simplifyContent a.content)) := by
    rw [← simGT85_iff, hab]
    simp
  rw [calculateSimilarity_comm] at hnot
  exact not_lt.mp hnot

/-- Witness for C5's universal part at the scenario's turn list. -/
theorem c5_redundancy_compression_witness :
    (redundantRetained fiftyTurns).Pairwise (fun a b =>
      calculateSimilarity (simplifyContent a.content) (simplifyContent b.content) ≤ 17/20) :=
  c5_redundancy_compression.1 fiftyTurns

/-! ## Association-list lemmas for the memory-layer folds -/

/-- Looking up the key just set yields the new value. -/
theorem assocLookup_set_self {β : Type} (m : List (String × β)) (k : String) (v : β) :
    assocLookup (assocSet m k v) k = some v := by
  induction m with
  | nil => simp [assocSet, assocLookup]
  | cons p t ih =>
    obtain ⟨k', v'⟩ := p
    simp only [assocSet]
    split
    · simp [assocLookup]
    · simpa [assocLookup, *] using ih

/-- Setting a different key does not change a lookup. -/
theorem assocLookup_set_ne {β : Type} (m : List (String × β)) (k k' : String) (v' : β)
    (h : k' ≠ k) : assocLookup (assocSet m k' v') k = assocLookup m k := by
  induction m with
  | nil => simp [assocSet, assocLookup, h]
  | cons p t ih =>
    obtain ⟨k0, v0⟩ := p
    simp only [assocSet]
    split
    · rename_i h0
      subst h0
      simp [assocLookup, h]
    · simp only [assocLookup]
      split
      · rfl
      · exact ih

/-- Re-setting a key to the value it already holds is a no-op. -/
theorem assocSet_of_lookup_eq {β : Type} (m : List (String × β)) (k : String) (v : β)
    (h : assocLookup m k = some v) : assocSet m k v = m := by
  induction m with
  | nil => simp [assocLookup] at h
  | cons p t ih =>
    obtain ⟨k0, v0⟩ := p
    simp only [assocLookup] at h
    simp only [assocSet]
    split
    · rename_i h0
      rw [if_pos h0] at h
      obtain rfl := Option.some.inj h
      rw [h0]
    · rename_i h0
      rw [if_neg h0] at h
      rw [ih h]

/-- Setting any key preserves the presence of every stored key. -/
theorem assocLookup_isSome_set {β : Type} (m : List (String × β)) (k k' : String) (v' : β)
    (h : (assocLookup m k).isSome) : (assocLookup (assocSet m k' v') k).isSome := by
  by_cases hk : k' = k
  · subst hk
    rw [assocLookup_set_self]
    rfl
  · rwa [assocLookup_set_ne _ _ _ _ hk]

/-- A fold whose every step either keeps the map or sets the step's own key
leaves lookups of untouched keys unchanged. -/
theorem assocFold_lookup_preserve {β γ : Type} (key : γ → String)
    (f : List (String × β) → γ → List (String × β))
    (hf : ∀ m x, f m x = m ∨ ∃ v, f m x = assocSet m (key x) v)
    (l : List γ) (m : List (String × β)) (k : String) (hk : ∀ x ∈ l, key x ≠ k) :
    assocLookup (l.foldl f m) k = assocLookup m k := by
  induction l generalizing m with
  | nil => rfl
  | cons x xs ih =>
    rw [List.foldl_cons]
    have hrest : ∀ y ∈ xs, key y ≠ k := fun y hy => hk y (List.mem_cons_of_mem _ hy)
    rcases hf m x with h | ⟨v, hv⟩
    · rw [h, ih m hrest]
    · rw [hv, ih _ hrest, assocLookup_set_ne _ _ _ _ (hk x (List.mem_cons_self x xs))]

/-- Such a fold also preserves the presence of every stored key. -/
theorem assocFold_isSome {β γ : Type} (key : γ → String)
    (f : List (String × β) → γ → List (String × β))
    (hf : ∀ m x, f m x = m ∨ ∃ v, f m x = assocSet m (key x) v)
    (l : List γ) (m : List (String × β)) (k : String)
    (h : (assocLookup m k).isSome) : (assocLookup (l.foldl f m) k).isSome := by
  induction l generalizing m with
  | nil => exact h
  | cons x xs ih =>
    rw [List.foldl_cons]
    rcases hf m x with he | ⟨v, hv⟩
    · rw [he]
      exact ih m h
    · rw [hv]
      exact ih _ (assocLookup_isSome_set _ _ _ _ h)

/-- When the step's action depends only on the input and keys are distinct,
the fold stores each written key's own value. -/
theorem assocFold_lookup_of_mem {β γ : Type} (key : γ → String)
    (f : List (String × β) → γ → List (String × β))
    (hf : ∀ x, (∀ m, f m x = m) ∨ ∃ v, ∀ m, f m x = assocSet m (key x) v)
    (l : List γ) (hnd : (l.map key).Nodup) (m : List (String × β))
    (x : γ) (hx : x ∈ l) (v : β) (hv : ∀ m', f m' x = assocSet m' (key x) v) :
    assocLookup (l.foldl f m) (key x) = some v := by
  induction l generalizing m with
  | nil => cases hx
  | cons y ys ih =>
    rw [List.map_cons, List.nodup_cons] at hnd
    rcases List.mem_cons.mp hx with rfl | hx'
    · rw [List.foldl_cons, hv m]
      have hne : ∀ z ∈ ys, key z ≠ key x := by
        intro z hz hcon
        exact hnd.1 (hcon ▸ List.mem_map_of_mem key hz)
      rw [assocFold_lookup_preserve key f
        (fun m' z => (hf z).elim (fun h => Or.inl (h m')) (fun ⟨w, hw⟩ => Or.inr ⟨w, hw m'⟩))
        ys _ (key x) hne]
      exact assocLookup_set_self _ _ _
    · rw [List.foldl_cons]
      rcases hf y with he | ⟨w, hw⟩
      · rw [he m]
        exact ih hnd.2 m hx'
      · rw [hw m]
        exact ih hnd.2 _ hx'

/-- A fold is a no-op when every step is either inert or re-writes the value
already stored. -/
theorem assocFold_noop {β γ : Type} (key : γ → String)
    (f : List (String × β) → γ → List (String × β))
    (l : List γ) (m0 : List (String × β))
    (h : ∀ x ∈ l, (∀ m, f m x = m) ∨
      ∃ v, (∀ m', f m' x = assocSet m' (key x) v) ∧ assocLookup m0 (key x) = some v) :
    l.foldl f m0 = m0 := by
  induction l with
  | nil => rfl
  | cons x xs ih =>
    rw [List.foldl_cons]
    rcases h x (List.mem_cons_self x xs) with he | ⟨v, hv, hl⟩
    · rw [he m0]
      exact ih (fun y hy => h y (List.mem_cons_of_mem _ hy))
    · rw [hv m0, assocSet_of_lookup_eq _ _ _ hl]
      exact ih (fun y hy => h y (List.mem_cons_of_mem _ hy))

/-- Running such a fold twice is the same as running it once. -/
theorem assocFold_idem {β γ : Type} (key : γ → String)
    (f : List (String × β) → γ → List (String × β))
    (hf : ∀ x, (∀ m, f m x = m) ∨ ∃ v, ∀ m, f m x = assocSet m (key x) v)
    (l : List γ) (hnd : (l.map key).Nodup) (m : List (String × β)) :
    l.foldl f (l.foldl f m) = l.foldl f m := by
  apply assocFold_noop
  intro x hx
  rcases hf x with he | ⟨v, hv⟩
  · exact Or.inl he
  · exact Or.inr ⟨v, hv, assocFold_lookup_of_mem key f hf l hnd m x hx v hv⟩

/-! ## Concept-set and segmentation lemmas -/

/-- The added concept is a member afterwards. -/
theorem insertConcept_self_mem (l : List String) (x : String) : x ∈ insertConcept l x := by
  unfold insertConcept
  split
  · assumption
  · simp

/-- Adding a present concept is a no-op. -/
theorem insertConcept_of_mem (l : List String) (x : String) (h : x ∈ l) :
    insertConcept l x = l := if_pos h

/-- Adding preserves membership. -/
theorem insertConcept_mono (l : List String) (x y : String) (h : y ∈ l) :
    y ∈ insertConcept l x := by
  unfold insertConcept
  split
  · exact h
  · exact List.mem_append_left _ h

/-- The concept fold preserves membership. -/
theorem conceptFold_mono (segs : List (String × List ConversationTurn))
    (l : List String) (y : String) (h : y ∈ l) :
    y ∈ segs.foldl (fun l p => if p.1 ≠ "general" then insertConcept l p.1 else l) l := by
  induction segs generalizing l with
  | nil => exact h
  | cons p ps ih =>
    rw [List.foldl_cons]
    split
    · exact ih _ (insertConcept_mono _ _ _ h)
    · exact ih _ h

/-- Every non-general segment topic is a member after the concept fold. -/
theorem conceptFold_adds (segs : List (String × List ConversationTurn))
    (l : List String) (p : String × List ConversationTurn) (hp : p ∈ segs)
    (hg : p.1 ≠ "general") :
    p.1 ∈ segs.foldl (fun l q => if q.1 ≠ "general" then insertConcept l q.1 else l) l := by
  induction segs generalizing l with
  | nil => cases hp
  | cons q qs ih =>
    rw [List.foldl_cons]
    rcases List.mem_cons.mp hp with rfl | hp'
    · rw [if_pos hg]
      exact conceptFold_mono qs _ _ (insertConcept_self_mem _ _)
    · split
      · exact ih _ hp'
      · exact ih _ hp'

/-- The concept fold is a no-op when everything it would add is present. -/
theorem conceptFold_noop (segs : List (String × List ConversationTurn)) (l : List String)
    (h : ∀ p ∈ segs, p.1 ≠ "general" → p.1 ∈ l) :
    segs.foldl (fun l q => if q.1 ≠ "general" then insertConcept l q.1 else l) l = l := by
  induction segs with
  | nil => rfl
  | cons q qs ih =>
    rw [List.foldl_cons]
    split
    · rename_i hg
      rw [insertConcept_of_mem _ _ (h q (List.mem_cons_self q qs) hg)]
      exact ih (fun p hp => h p (List.mem_cons_of_mem _ hp))
    · exact ih (fun p hp => h p (List.mem_cons_of_mem _ hp))

/-- Running the concept fold twice equals running it once. -/
theorem conceptFold_idem (segs : List (String × List ConversationTurn)) (l : List String) :
    segs.foldl (fun l q => if q.1 ≠ "general" then insertConcept l q.1 else l)
      (segs.foldl (fun l q => if q.1 ≠ "general" then insertConcept l q.1 else l) l) =
    segs.foldl (fun l q => if q.1 ≠ "general" then insertConcept l q.1 else l) l :=
  conceptFold_noop _ _ (fun p hp hg => conceptFold_adds segs l p hp hg)

/-- The keys after `addToSegment`: unchanged for a known topic, extended at
the end for a new one. -/
theorem addToSegment_keys (segs : List (String × List ConversationTurn)) (tp : String)
    (t : ConversationTurn) :
    (addToSegment segs tp t).map Prod.fst =
      if tp ∈ segs.map Prod.fst then segs.map Prod.fst else segs.map Prod.fst ++ [tp] := by
  induction segs with
  | nil => simp [addToSegment]
  | cons p ps ih =>
    obtain ⟨k, ts⟩ := p
    simp only [addToSegment]
    split
    · rename_i hk
      subst hk
      simp
    · rename_i hk
      simp only [List.map_cons, ih, List.mem_cons]
      by_cases hmem : tp ∈ ps.map Prod.fst
      · rw [if_pos hmem, if_pos (Or.inr hmem)]
      · rw [if_neg hmem,
          if_neg (by push_neg; exact ⟨fun h => hk h.symm, hmem⟩), List.cons_append]

/-- `addToSegment` keeps the key list duplicate-free. -/
theorem addToSegment_keys_nodup (segs : List (String × List ConversationTurn)) (tp : String)
    (t : ConversationTurn) (h : (segs.map Prod.fst).Nodup) :
    ((addToSegment segs tp t).map Prod.fst).Nodup := by
  rw [addToSegment_keys]
  split
  · exact h
  · rename_i hmem
    simp [List.nodup_append, h, hmem]

/-- The topic keys of `segmentByTopics` are duplicate-free. -/
theorem segmentByTopics_keys_nodup (H : List ConversationTurn) :
    ((segmentByTopics H).map Prod.fst).Nodup := by
  suffices h : ∀ segs : List (String × List ConversationTurn), (segs.map Prod.fst).Nodup →
      ((H.foldl (fun segs t => addToSegment segs (extractTopic t) t) segs).map Prod.fst).Nodup by
    exact h [] (by simp)
  induction H with
  | nil => exact fun segs hs => hs
  | cons t ts ih =>
    intro segs hs
    rw [List.foldl_cons]
    exact ih _ (addToSegment_keys_nodup _ _ _ hs)

/-! ## C9: project memory across successive compress calls -/

/-- The project-memory step acts on the accumulator only through its own
topic key, with a value depending only on the segment. -/
theorem pmStep_spec (p : String × List ConversationTurn) :
    (∀ m : List (String × List Decision),
      (if (extractKeyDecisions p.2).isEmpty then m
       else assocSet m p.1 (extractKeyDecisions p.2)) = m) ∨
    ∃ v, ∀ m : List (String × List Decision),
      (if (extractKeyDecisions p.2).isEmpty then m
       else assocSet m p.1 (extractKeyDecisions p.2)) = assocSet m p.1 v := by
  by_cases h : (extractKeyDecisions p.2).isEmpty
  · exact Or.inl (fun m => if_pos h)
  · exact Or.inr ⟨extractKeyDecisions p.2, fun m => if_neg h⟩

/-- The semantic-cache step acts on the accumulator only through its own
topic key, with a value depending only on the segment. -/
theorem scStep_spec (p : String × List ConversationTurn) :
    (∀ c : List (String × String),
      (if (redundantRetained p.2).length < p.2.length then
        assocSet c p.1 (String.intercalate "\n" ((redundantRetained p.2).map ConversationTurn.content))
       else c) = c) ∨
    ∃ v, ∀ c : List (String × String),
      (if (redundantRetained p.2).length < p.2.length then
        assocSet c p.1 (String.intercalate "\n" ((redundantRetained p.2).map ConversationTurn.content))
       else c) = assocSet c p.1 v := by
  by_cases h : (redundantRetained p.2).length < p.2.length
  · exact Or.inr ⟨_, fun c => if_pos h⟩
  · exact Or.inl (fun c => if_neg h)

/-- `updateMemoryLayers` is idempotent on states for a fixed segment list
with duplicate-free topic keys. -/
theorem updateMemoryLayers_idem (st : MemoryLayer)
    (segs : List (String × List ConversationTurn))
    (hnd : (segs.map Prod.fst).Nodup) :
    updateMemoryLayers (updateMemoryLayers st segs) segs = updateMemoryLayers st segs := by
  simp only [updateMemoryLayers, compressRedundantInfo, MemoryLayer.mk.injEq]
  refine ⟨trivial, ?_, ?_, ?_⟩
  · exact assocFold_idem Prod.fst _ pmStep_spec segs hnd st.projectMemory
  · exact assocFold_idem Prod.fst _ scStep_spec segs hnd st.semanticCache
  · exact conceptFold_idem segs st.educationalConcepts

/-- C9 (amended): across compress calls, topics already present in project
memory are never removed; but for each topic segment of the current history
with at least one extracted key decision, the stored decision list is
overwritten with exactly the decisions extracted from the current history —
they are not merged with what was stored before. -/
theorem c9_project_memory_overwrite (tl : String → Nat) (js : List Decision → String)
    (st : MemoryLayer) (H : List ConversationTurn) (B now : Nat) :
    (∀ topic, (assocLookup st.projectMemory topic).isSome →
      (assocLookup (compressContext tl js st H B now).2.projectMemory topic).isSome) ∧
    (∀ p ∈ segmentByTopics H, extractKeyDecisions p.2 ≠ [] →
      assocLookup (compressContext tl js st H B now).2.projectMemory p.1 =
        some (extractKeyDecisions p.2)) := by
  constructor
  · intro topic hsome
    exact assocFold_isSome Prod.fst _
      (fun m p => (pmStep_spec p).elim (fun h => Or.inl (h m)) (fun ⟨v, hv⟩ => Or.inr ⟨v, hv m⟩))
      (segmentByTopics H) st.projectMemory topic hsome
  · intro p hp hkd
    exact assocFold_lookup_of_mem Prod.fst _ pmStep_spec (segmentByTopics H)
      (segmentByTopics_keys_nodup H) st.projectMemory p hp (extractKeyDecisions p.2)
      (fun m' => if_neg (by simpa [List.isEmpty_iff] using hkd))

/-- Witness for C9's amended theorem: after the first call, the stored
decisions for `general` are exactly those extracted from the history. -/
theorem c9_project_memory_overwrite_witness :
    assocLookup (compressContext specTokenLen jsEmpty emptyMemory historyAB 8000 0).2.projectMemory
      "general" = some (extractKeyDecisions historyAB) :=
  (c9_project_memory_overwrite specTokenLen jsEmpty emptyMemory historyAB 8000 0).2
    ("general", historyAB) (by decide) (by decide)

/-- C9 counterexample: the first call stores the two decisions of `set a`,
`set b` under `general`; the second call (history `set c`) overwrites the
entry with just the `set c` decision — the earlier decisions are erased, not
merged. -/
theorem c9_counterexample :
    assocLookup (compressContext specTokenLen jsEmpty emptyMemory historyAB 8000 0).2.projectMemory
        "general" =
      some [{ content := "set a", type := Role.user, importance := Rat.divInt 4 5 },
            { content := "set b", type := Role.user, importance := Rat.divInt 4 5 }] ∧
    assocLookup (compressContext specTokenLen jsEmpty
        (compressContext specTokenLen jsEmpty emptyMemory historyAB 8000 0).2
        historyC 8000 1).2.projectMemory "general" =
      some [{ content := "set c", type := Role.user, importance := Rat.divInt 4 5 }] ∧
    ({ content := "set a", type := Role.user, importance := Rat.divInt 4 5 } : Decision) ∉
      [({ content := "set c", type := Role.user, importance := Rat.divInt 4 5 } : Decision)] := by
  decide

/-! ## C3: idempotence of compression -/

/-- Tier-2 folds with different clock readings produce the same turns up to
the timestamp field, and the same running totals. -/
theorem fitMemory_fold_congr (tl : String → Nat) (js : List Decision → String)
    (B now1 now2 : Nat) (l : List (String × List Decision)) :
    ∀ acc1 acc2 : List ConversationTurn × Nat,
      acc1.1.map stripTs = acc2.1.map stripTs → acc1.2 = acc2.2 →
      (l.foldl (fitMemory tl js B now1) acc1).1.map stripTs =
        (l.foldl (fitMemory tl js B now2) acc2).1.map stripTs ∧
      (l.foldl (fitMemory tl js B now1) acc1).2 =
        (l.foldl (fitMemory tl js B now2) acc2).2 := by
  induction l with
  | nil => exact fun _ _ h1 h2 => ⟨h1, h2⟩
  | cons p ps ih =>
    intro acc1 acc2 h1 h2
    rw [List.foldl_cons, List.foldl_cons]
    have htok : countTokens tl [memoryTurn js now1 p] =
        countTokens tl [memoryTurn js now2 p] := rfl
    by_cases hc : acc2.2 + countTokens tl [memoryTurn js now2 p] ≤ B
    · have hc1 : acc1.2 + countTokens tl [memoryTurn js now1 p] ≤ B := by
        rw [h2, htok]; exact hc
      have e1 : fitMemory tl js B now1 acc1 p =
          (acc1.1 ++ [memoryTurn js now1 p],
           acc1.2 + countTokens tl [memoryTurn js now1 p]) := by
        simp only [fitMemory]; rw [if_pos hc1]
      have e2 : fitMemory tl js B now2 acc2 p =
          (acc2.1 ++ [memoryTurn js now2 p],
           acc2.2 + countTokens tl [memoryTurn js now2 p]) := by
        simp only [fitMemory]; rw [if_pos hc]
      rw [e1, e2]
      refine ih _ _ ?_ ?_
      · simp only [List.map_append, h1]
        rfl
      · simp only [h2, htok]
    · have hc1 : ¬(acc1.2 + countTokens tl [memoryTurn js now1 p] ≤ B) := by
        rw [h2, htok]; exact hc
      have e1 : fitMemory tl js B now1 acc1 p = acc1 := by
        simp only [fitMemory]; rw [if_neg hc1]
      have e2 : fitMemory tl js B now2 acc2 p = acc2 := by
        simp only [fitMemory]; rw [if_neg hc]
      rw [e1, e2]
      exact ih _ _ h1 h2

/-- Tier-3 folds with different clock readings: same turns up to timestamps,
same running totals. -/
theorem fitCache_fold_congr (tl : String → Nat) (B now1 now2 : Nat)
    (l : List (String × String)) :
    ∀ acc1 acc2 : List ConversationTurn × Nat,
      acc1.1.map stripTs = acc2.1.map stripTs → acc1.2 = acc2.2 →
      (l.foldl (fitCache tl B now1) acc1).1.map stripTs =
        (l.foldl (fitCache tl B now2) acc2).1.map stripTs ∧
      (l.foldl (fitCache tl B now1) acc1).2 =
        (l.foldl (fitCache tl B now2) acc2).2 := by
  induction l with
  | nil => exact fun _ _ h1 h2 => ⟨h1, h2⟩
  | cons p ps ih =>
    intro acc1 acc2 h1 h2
    rw [List.foldl_cons, List.foldl_cons]
    have htok : countTokens tl [cacheTurn now1 p] = countTokens tl [cacheTurn now2 p] := rfl
    by_cases hc : 10 * (acc2.2 + countTokens tl [cacheTurn now2 p]) ≤ 9 * B
    · have hc1 : 10 * (acc1.2 + countTokens tl [cacheTurn now1 p]) ≤ 9 * B := by
        rw [h2, htok]; exact hc
      have e1 : fitCache tl B now1 acc1 p =
          (acc1.1 ++ [cacheTurn now1 p], acc1.2 + countTokens tl [cacheTurn now1 p]) := by
        simp only [fitCache]; rw [if_pos hc1]
      have e2 : fitCache tl B now2 acc2 p =
          (acc2.1 ++ [cacheTurn now2 p], acc2.2 + countTokens tl [cacheTurn now2 p]) := by
        simp only [fitCache]; rw [if_pos hc]
      rw [e1, e2]
      refine ih _ _ ?_ ?_
      · simp only [List.map_append, h1]
        rfl
      · simp only [h2, htok]
    · have hc1 : ¬(10 * (acc1.2 + countTokens tl [cacheTurn now1 p]) ≤ 9 * B) := by
        rw [h2, htok]; exact hc
      have e1 : fitCache tl B now1 acc1 p = acc1 := by
        simp only [fitCache]; rw [if_neg hc1]
      have e2 : fitCache tl B now2 acc2 p = acc2 := by
        simp only [fitCache]; rw [if_neg hc]
      rw [e1, e2]
      exact ih _ _ h1 h2

/-- The assembled sequence depends on the clock only through the timestamps
of the synthetic turns. -/
theorem pbc_strip_congr (tl : String → Nat) (js : List Decision → String)
    (st : MemoryLayer) (B now1 now2 : Nat) :
    (priorityBasedCompression tl js st B now1).map stripTs =
      (priorityBasedCompression tl js st B now2).map stripTs := by
  unfold priorityBasedCompression
  have h2 := fitMemory_fold_congr tl js B now1 now2 st.projectMemory
    (st.activeContext.foldl (fitActive tl B) ([], 0))
    (st.activeContext.foldl (fitActive tl B) ([], 0)) rfl rfl
  exact (fitCache_fold_congr tl B now1 now2 st.semanticCache _ _ h2.1 h2.2).1

/-- Turn texts are determined by the timestamp-free projection. -/
theorem map_turnText_congr (l1 l2 : List ConversationTurn)
    (h : l1.map stripTs = l2.map stripTs) : l1.map turnText = l2.map turnText := by
  have hfac : turnText =
      (fun p : Role × String × Option TurnMetadata => roleStr p.1 ++ ": " ++ p.2.1) ∘ stripTs :=
    rfl
  rw [hfac, ← List.map_map, h, List.map_map]

/-- Token counts are determined by the timestamp-free projection. -/
theorem countTokens_congr (tl : String → Nat) (l1 l2 : List ConversationTurn)
    (h : l1.map stripTs = l2.map stripTs) : countTokens tl l1 = countTokens tl l2 := by
  unfold countTokens
  rw [map_turnText_congr l1 l2 h]

/-- C3 (amended): re-running `compress` on the same engine with the same
history and budget reproduces the first result in every component except the
wall-clock timestamps of the synthetic summary turns; with the clock held
fixed the two calls agree exactly (result and state). -/
theorem c3_idempotent_up_to_timestamps (tl : String → Nat) (js : List Decision → String)
    (st : MemoryLayer) (H : List ConversationTurn) (B now1 now2 : Nat) :
    ((compressContext tl js (compressContext tl js st H B now1).2 H B now2).1.compressed.map
        stripTs =
      (compressContext tl js st H B now1).1.compressed.map stripTs) ∧
    (compressContext tl js (compressContext tl js st H B now1).2 H B now2).1.tokenCount =
      (compressContext tl js st H B now1).1.tokenCount ∧
    (compressContext tl js (compressContext tl js st H B now1).2 H B now2).1.compressionRatio =
      (compressContext tl js st H B now1).1.compressionRatio ∧
    (compressContext tl js (compressContext tl js st H B now1).2 H B now2).1.preservedConcepts =
      (compressContext tl js st H B now1).1.preservedConcepts ∧
    (now1 = now2 →
      compressContext tl js (compressContext tl js st H B now1).2 H B now2 =
        compressContext tl js st H B now1) := by
  have hst := updateMemoryLayers_idem st (segmentByTopics H) (segmentByTopics_keys_nodup H)
  have hcomp : (compressContext tl js (compressContext tl js st H B now1).2 H B now2).1.compressed
      = priorityBasedCompression tl js (updateMemoryLayers st (segmentByTopics H)) B now2 := by
    show priorityBasedCompression tl js
      (updateMemoryLayers (updateMemoryLayers st (segmentByTopics H)) (segmentByTopics H))
      B now2 = _
    rw [hst]
  have hstrip : (compressContext tl js (compressContext tl js st H B now1).2 H B
      now2).1.compressed.map stripTs =
      (compressContext tl js st H B now1).1.compressed.map stripTs := by
    rw [hcomp]
    exact pbc_strip_congr tl js _ B now2 now1
  have htok : (compressContext tl js (compressContext tl js st H B now1).2 H B now2).1.tokenCount
      = (compressContext tl js st H B now1).1.tokenCount :=
    countTokens_congr tl _ _ hstrip
  refine ⟨hstrip, htok, ?_, ?_, ?_⟩
  · rw [compressionRatio_def, compressionRatio_def, htok]
  · show (updateMemoryLayers (updateMemoryLayers st (segmentByTopics H))
        (segmentByTopics H)).educationalConcepts =
      (updateMemoryLayers st (segmentByTopics H)).educationalConcepts
    rw [hst]
  · intro h
    subst h
    show compressContext tl js (updateMemoryLayers st (segmentByTopics H)) H B now1 =
      compressContext tl js st H B now1
    simp only [compressContext]
    rw [hst]

/-- Witness for C3's amended theorem: the second call reports the same token
count as the first on a concrete history. -/
theorem c3_idempotent_up_to_timestamps_witness :
    (compressContext specTokenLen jsEmpty
        (compressContext specTokenLen jsEmpty emptyMemory oneSetTurn 8000 0).2
        oneSetTurn 8000 1).1.tokenCount =
      (compressContext specTokenLen jsEmpty emptyMemory oneSetTurn 8000 0).1.tokenCount :=
  (c3_idempotent_up_to_timestamps specTokenLen jsEmpty emptyMemory oneSetTurn 8000 0 1).2.1

/-- C3 counterexample: with the wall clock advancing between the two calls
(`Date.now()` readings 0 then 1), the two `CompressionResult`s differ — the
synthetic `[general context]` turn records a different timestamp. -/
theorem c3_counterexample :
    (compressContext specTokenLen jsEmpty emptyMemory oneSetTurn 8000 0).1 ≠
      (compressContext specTokenLen jsEmpty
        (compressContext specTokenLen jsEmpty emptyMemory oneSetTurn 8000 0).2
        oneSetTurn 8000 1).1 := by
  intro h
  have hts := congrArg (fun r => r.compressed.map ConversationTurn.timestamp) h
  simp only at hts
  rw [show (compressContext specTokenLen jsEmpty emptyMemory oneSetTurn 8000
        0).1.compressed.map ConversationTurn.timestamp = [5, 0] from by decide,
    show (compressContext specTokenLen jsEmpty
        (compressContext specTokenLen jsEmpty emptyMemory oneSetTurn 8000 0).2
        oneSetTurn 8000 1).1.compressed.map ConversationTurn.timestamp = [5, 1] from by decide]
    at hts
  exact absurd hts (by decide)
